import Mathlib

/-!
Verification of the job-orchestration core of the Ad-classifier video service.

The definitions below are a shallow embedding of the Python source:
  - `video_service/db/database.py`        (jobs table schema)
  - `video_service/workers/worker.py`     (claim engine, stage writes, event log)
  - `video_service/app/main.py`           (startup sweep, job creation, routing)
  - `video_service/core/stale_recovery.py` (periodic stale-job watchdog)
  - `video_service/core/cluster.py`       (round-robin placement, health set)
  - `video_service/workers/embedded.py`   (worker-process supervisor)

The SQLite `jobs` table is modelled as a list of rows; `CURRENT_TIMESTAMP`
is modelled by an explicit `now : Nat` argument, and the timestamp string
interpolated into event messages by an explicit `ts : String` argument.
Columns never touched by the orchestration logic under scrutiny (brand,
category, artifacts_json, benchmark bookkeeping) are elided.
-/

namespace AdClassifier

/-- A row of the `jobs` table (`database.py`, `init_db`). -/
structure Job where
  id : String
  status : String
  stage : String
  stage_detail : String
  mode : String
  settings : String
  url : String
  progress : Nat
  error : Option String
  result_json : Option String
  events : List String
  created_at : Nat
  updated_at : Nat
deriving DecidableEq

/-- The `jobs` table: one row per job, `id` is the primary key. -/
abbrev Table := List Job

/-- Python string slicing `s[:n]` (code-point prefix of length at most `n`). -/
def strTake (s : String) (n : Nat) : String := ⟨s.data.take n⟩

/-- Python `s.startswith(p)`, compared by code points. -/
def strStarts (p s : String) : Bool := p.data.isPrefixOf s.data

/-- Whitespace-separated words of a character list, as Python `str.split()`
    with no arguments: runs of whitespace separate words, empty words are
    dropped.  The accumulator holds the current word reversed. -/
def splitWords : List Char → List Char → List (List Char)
  | [], acc => if acc = [] then [] else [acc.reverse]
  | c :: rest, acc =>
      if c.isWhitespace then
        if acc = [] then splitWords rest [] else acc.reverse :: splitWords rest []
      else splitWords rest (c :: acc)

/-- `_short` from `worker.py`: collapse whitespace
    (`" ".join(text.split())`) and truncate to `maxLen` characters. -/
def shortText (s : String) (maxLen : Nat) : String :=
  ⟨(List.intercalate [' '] (splitWords s.data [])).take maxLen⟩

/-- Event-list bounding used by `_append_job_event` (`worker.py`) and
    `_append_recovery_event` (`main.py`, `stale_recovery.py`): append the
    message, then keep only the most recent 400 entries (`events[-400:]`). -/
def boundEvents (events : List String) (message : String) : List String :=
  let es := events ++ [message]
  es.drop (es.length - 400)

/-- A SQL `UPDATE jobs SET ... WHERE id = ?`: apply `f` to every row whose
    `id` equals `jobId`, leave all other rows unchanged. -/
def updateRow (table : Table) (jobId : String) (f : Job → Job) : Table :=
  table.map fun j => if j.id = jobId then f j else j

/-- Body of `_append_job_event` (`worker.py`) before its `try/except`:
    read the row's event list, append, bound to 400, write back, refreshing
    `updated_at`.  A transient storage error is modelled by the `fault`
    argument: when present the attempt raises and, because the connection
    context rolls back, leaves the table unchanged. -/
def appendJobEventAttempt (table : Table) (jobId message : String) (now : Nat)
    (fault : Option String) : Except String Table :=
  match fault with
  | some e => .error e
  | none => .ok (updateRow table jobId fun j =>
      { j with events := boundEvents j.events message, updated_at := now })

/-- `_append_job_event` (`worker.py`): the whole read-modify-write sits in a
    `try/except Exception` that logs the failure and returns normally, so an
    error is swallowed and the event silently dropped. -/
def append_job_event (table : Table) (jobId message : String) (now : Nat)
    (fault : Option String) : Table :=
  match appendJobEventAttempt table jobId message now fault with
  | .ok t => t
  | .error _ => table

/-- `_append_recovery_event` (`main.py` and `stale_recovery.py`): append a
    timestamped `recovery: <message>` line, bounded to 400 entries. -/
def appendRecoveryEvent (table : Table) (jobId message ts : String)
    (now : Nat) : Table :=
  updateRow table jobId fun j =>
    { j with events := boundEvents j.events (ts ++ " recovery: " ++ message),
             updated_at := now }

/-- Field updates of `_set_stage` (`worker.py`): write `stage` (falsy stage
    becomes `"-"`), the whitespace-collapsed detail truncated to 220 chars,
    refresh `updated_at`, and optionally write `status` and `error` (the
    error truncated to 4096 chars, `error[:4096]`). -/
def setStageFields (stage detail : String) (status : Option String)
    (error : Option String) (now : Nat) (j : Job) : Job :=
  { j with stage := if stage = "" then "-" else stage,
           stage_detail := shortText detail 220,
           updated_at := now,
           status := status.getD j.status,
           error := match error with
                    | some e => some (strTake e 4096)
                    | none => j.error }

/-- `_set_stage` (`worker.py`): the row update followed by the
    `_append_job_event` call recording `"<ts> <stage>: <detail>"`. -/
def set_stage (table : Table) (jobId stage detail : String)
    (status error : Option String) (ts : String) (now : Nat) : Table :=
  let t1 := updateRow table jobId (setStageFields stage detail status error now)
  append_job_event t1 jobId
    (ts ++ " " ++ (if stage = "" then "-" else stage) ++ ": " ++ shortText detail 220)
    now none

/-- Outcome of running a job's stage pipeline (`_run_pipeline` /
    `_run_agent`): either a result payload or a raised error message. -/
inductive PipelineOutcome where
  | success (resultJson : Option String)
  | failure (errorMsg : String)

/-- Mode dispatch inside `claim_and_process_job` (`worker.py`): `"pipeline"`
    and `"agent"` run the (out-of-scope) stage pipeline, any other mode
    raises `ValueError`, which the surrounding handler turns into a
    failure outcome. -/
def dispatchJob (runStage : Job → PipelineOutcome) (j : Job) : PipelineOutcome :=
  if j.mode = "pipeline" ∨ j.mode = "agent" then runStage j
  else .failure ("ValueError: Unknown mode: " ++ j.mode)

/-- The claimer's row select, `SELECT * FROM jobs WHERE status = 'queued'
    LIMIT 1`: the first queued row in scan order. -/
def findQueued (table : Table) : Option Job :=
  table.find? fun j => j.status == "queued"

/-- The claim update (`worker.py`): `status = 'processing', stage = 'claim',
    stage_detail = 'worker claimed job', updated_at = CURRENT_TIMESTAMP`. -/
def claimFields (now : Nat) (j : Job) : Job :=
  { j with status := "processing", stage := "claim",
           stage_detail := "worker claimed job", updated_at := now }

/-- The completed-persist update (`worker.py`): `status = 'completed',
    stage = 'completed', stage_detail = 'result persisted', progress = 100,
    result_json = ?`. -/
def completedFields (resultJson : Option String) (now : Nat) (j : Job) : Job :=
  { j with status := "completed", stage := "completed",
           stage_detail := "result persisted", progress := 100,
           result_json := resultJson, updated_at := now }

/-- The terminal-persist block of `claim_and_process_job` (`worker.py`):
    on a pipeline error, `_set_stage(..., "failed", "job failed: <short>",
    status="failed", error=<msg>)`; on success, the completed update
    followed by a `completed: result persisted` event. -/
def persistOutcome (table : Table) (jobId : String) (outcome : PipelineOutcome)
    (ts : String) (now : Nat) : Table :=
  match outcome with
  | .failure msg =>
      set_stage table jobId "failed" ("job failed: " ++ shortText msg 180)
        (some "failed") (some msg) ts now
  | .success resultJson =>
      let t1 := set_stage table jobId "persist" "persisting result payload"
        none none ts now
      let t2 := updateRow t1 jobId (completedFields resultJson now)
      append_job_event t2 jobId (ts ++ " completed: result persisted") now none

/-- `claim_and_process_job` (`worker.py`): inside an exclusive transaction,
    select one queued row (none → rollback, return `false`); claim it by
    setting `status='processing'` and commit; append the claim event; run
    the stage pipeline; persist the terminal outcome; return `true`. -/
def claim_and_process_job (runStage : Job → PipelineOutcome) (ts : String)
    (now : Nat) (table : Table) : Bool × Table :=
  match findQueued table with
  | none => (false, table)
  | some row =>
      let t1 := updateRow table row.id (claimFields now)
      let t2 := append_job_event t1 row.id (ts ++ " claim: worker claimed job") now none
      let t3 := persistOutcome t2 row.id (dispatchJob runStage row) ts now
      (true, t3)

/-- `_create_job` (`main.py`): insert a fresh row with
    `id = "<node>-<uuid>"`, `status = stage = 'queued'`,
    `stage_detail = 'waiting for worker claim'`, empty event list. -/
def create_job (table : Table) (nodeName uuid mode settingsJson url : String)
    (now : Nat) : Table :=
  table ++ [{ id := nodeName ++ "-" ++ uuid, status := "queued",
              stage := "queued", stage_detail := "waiting for worker claim",
              mode := mode, settings := settingsJson, url := url,
              progress := 0, error := none, result_json := none,
              events := [], created_at := now, updated_at := now }]

/-- Candidate select of the startup sweep (`main.py`,
    `_recover_stale_jobs_on_startup`): ids of every `processing` row. -/
def selectProcessingIds (table : Table) : List String :=
  (table.filter fun j => j.status == "processing").map Job.id

/-- Candidate select of the periodic watchdog (`stale_recovery.py`):
    ids of `processing` rows with `updated_at < datetime('now', '-T
    seconds')`, i.e. `updated_at + timeout < now`. -/
def selectStaleIds (table : Table) (timeout now : Nat) : List String :=
  (table.filter fun j =>
    j.status == "processing" && decide (j.updated_at + timeout < now)).map Job.id

/-- Per-row effect of the startup sweep's reset `UPDATE` (`main.py`): its
    `WHERE` clause checks only `id IN (...)` — the status is NOT
    re-checked at update time. -/
def startupResetRow (ids : List String) (now : Nat) (j : Job) : Job :=
  if ids.contains j.id then
    { j with status := "queued", stage := "queued",
             stage_detail := "recovered after restart", updated_at := now }
  else j

/-- The startup sweep's reset `UPDATE ... WHERE id IN (...)`. -/
def startupUpdate (table : Table) (ids : List String) (now : Nat) : Table :=
  table.map (startupResetRow ids now)

/-- Per-row effect of the watchdog's reset `UPDATE` (`stale_recovery.py`):
    its `WHERE` clause re-checks `id IN (...) AND status = 'processing' AND
    updated_at < cutoff` at the moment the update executes. -/
def watchdogResetRow (ids : List String) (timeout now : Nat) (j : Job) : Job :=
  if ids.contains j.id ∧ j.status = "processing" ∧ j.updated_at + timeout < now then
    { j with status := "queued", stage := "queued",
             stage_detail := "recovered by watchdog (stale timeout)",
             updated_at := now }
  else j

/-- The watchdog's conditional reset `UPDATE`. -/
def watchdogUpdate (table : Table) (ids : List String) (timeout now : Nat) : Table :=
  table.map (watchdogResetRow ids timeout now)

/-- `_recover_stale_jobs_on_startup` (`main.py`): select all `processing`
    ids, reset them by id, append one recovery event per id, and return the
    number of reset rows. -/
def recover_stale_jobs_on_startup (ts : String) (now : Nat) (table : Table) :
    Nat × Table :=
  let ids := selectProcessingIds table
  if ids.isEmpty then (0, table)
  else
    let t1 := startupUpdate table ids now
    let t2 := ids.foldl
      (fun acc i => appendRecoveryEvent acc i "recovered after process restart" ts now) t1
    (ids.length, t2)

/-- One pass of `_recover_stale_jobs` (`stale_recovery.py`): disabled when
    the configured timeout is zero or negative; otherwise select stale
    `processing` ids, run the conditional reset update, re-select the rows
    the update actually recovered, append one recovery event to each, and
    return the recovered count. -/
def recover_stale_jobs (timeoutSeconds : Int) (ts : String) (now : Nat)
    (table : Table) : Nat × Table :=
  if timeoutSeconds ≤ 0 then (0, table)
  else
    let timeout := timeoutSeconds.toNat
    let ids := selectStaleIds table timeout now
    if ids.isEmpty then (0, table)
    else
      let t1 := watchdogUpdate table ids timeout now
      let recovered := (t1.filter fun j =>
        ids.contains j.id && j.status == "queued" &&
          j.stage_detail == "recovered by watchdog (stale timeout)").map Job.id
      let t2 := recovered.foldl
        (fun acc i =>
          appendRecoveryEvent acc i "recovered by watchdog (stale timeout)" ts now) t1
      (recovered.length, t2)

/-- In-memory cluster state of `ClusterConfig` (`cluster.py`): the static
    node-name → base-url map (in insertion order), the health map refreshed
    by the background loop, the enabled flag (more than one configured
    node), and the round-robin cursor. -/
structure ClusterState where
  enabled : Bool
  self_name : String
  nodes : List (String × String)
  node_status : List (String × Bool)
  last_rr_index : Nat
deriving DecidableEq

/-- `ClusterConfig.get_healthy_nodes`: names whose last health check
    succeeded. -/
def get_healthy_nodes (c : ClusterState) : List String :=
  (c.node_status.filter fun p => p.2).map Prod.fst

/-- `ClusterConfig.get_node_url`: `self.nodes.get(node_name)`. -/
def get_node_url (c : ClusterState) (name : String) : Option String :=
  (c.nodes.find? fun p => p.1 == name).map Prod.snd

/-- `ClusterConfig.select_rr_node` (`cluster.py`): the local node when the
    cluster is disabled; otherwise `None` when no node is healthy, else the
    next healthy node in round-robin order. -/
def select_rr_node (c : ClusterState) : Option String × ClusterState :=
  if c.enabled = false then (some c.self_name, c)
  else
    let healthy := get_healthy_nodes c
    if h : 0 < healthy.length then
      let idx := (c.last_rr_index + 1) % healthy.length
      (some (healthy.get ⟨idx, Nat.mod_lt _ h⟩), { c with last_rr_index := idx })
    else (none, c)

/-- `_rr_or_raise` (`main.py`): select a node via round-robin or raise
    `HTTPException(503, "No healthy nodes available")`. -/
def rr_or_raise (c : ClusterState) : Except (Nat × String) String × ClusterState :=
  match select_rr_node c with
  | (none, c2) => (.error (503, "No healthy nodes available"), c2)
  | (some n, c2) => (.ok n, c2)

/-- `_maybe_proxy` (`main.py`): a request that already carries the
    `internal=1` marker is handled locally (`None`).  Otherwise the first
    configured node whose `"<name>-"` is a prefix of the job id owns the
    job; when that owner is a non-empty name different from this node and
    has a known url, the request is forwarded there — `_proxy_request`
    appends `?internal=1` to the forwarded copy, modelled by the `true`
    marker component of the result. -/
def maybe_proxy (c : ClusterState) (internalMarker : Bool) (jobId : String) :
    Option (String × Bool) :=
  if internalMarker then none
  else
    match c.nodes.find? (fun p => strStarts (p.1 ++ "-") jobId) with
    | none => none
    | some (name, _) =>
        if ¬ name = "" ∧ ¬ name = c.self_name then
          match get_node_url c name with
          | some url => some (url, true)
          | none => none
        else none

/-- Supervisor-local state of `workers/embedded.py`: the spawned child
    processes (`_children`, one liveness flag each), whether the current
    process is itself a spawned child (`multiprocessing.parent_process()
    is not None`), the `EMBED_WORKERS` switch, and the configured worker
    process count. -/
structure SupervisorState where
  children : List Bool
  isChildProcess : Bool
  embedWorkers : Bool
  workerCount : Nat
deriving DecidableEq

/-- `start` (`embedded.py`): refuse to spawn inside a child process or when
    embedding is disabled; if children were already spawned, return the
    currently-alive count without touching them; otherwise spawn
    `workerCount` fresh (alive) children and return that count. -/
def embeddedStart (s : SupervisorState) : Nat × SupervisorState :=
  if s.isChildProcess then (0, s)
  else if s.embedWorkers = false then (0, s)
  else if ¬ s.children = [] then ((s.children.filter id).length, s)
  else (s.workerCount, { s with children := List.replicate s.workerCount true })

/-! Concrete fixtures used to instantiate the theorems below. -/

/-- A freshly queued job as `_create_job` writes it. -/
def queuedJobW : Job :=
  { id := "node-a-w", status := "queued", stage := "queued",
    stage_detail := "waiting for worker claim", mode := "pipeline",
    settings := "", url := "", progress := 0, error := none,
    result_json := none, events := [], created_at := 0, updated_at := 0 }

/-- A `processing` job whose `updated_at` lies beyond the default 600 s
    stale timeout when the watchdog fires at `now = 1000`. -/
def staleJobC3 : Job :=
  { id := "stale-job", status := "processing", stage := "llm",
    stage_detail := "running", mode := "pipeline", settings := "", url := "",
    progress := 0, error := none, result_json := none, events := [],
    created_at := 0, updated_at := 0 }

/-- A `processing` job still within the stale timeout at `now = 1000`. -/
def freshJobC3 : Job := { staleJobC3 with id := "fresh-job", updated_at := 900 }

/-- The row `_append_job_event` is asked to update while the store reports
    sustained lock contention. -/
def lockedJobC4 : Job := { staleJobC3 with id := "job-1" }

/-- A `processing` job the startup sweep races against a completing
    worker. -/
def procJobC1 : Job := { staleJobC3 with id := "node-a-7" }

/-- The candidate ids the startup sweep captures while `procJobC1` is still
    `processing`. -/
def sweepIdsC1 : List String := selectProcessingIds [procJobC1]

/-- The table after a worker persists `procJobC1` as `completed`, between
    the startup sweep's candidate select and its reset update. -/
def completedTableC1 : Table :=
  persistOutcome [procJobC1] "node-a-7" (PipelineOutcome.success none) "T" 5

/-- A terminal (`completed`) job used to instantiate the preservation
    theorem. -/
def doneJobW : Job := { procJobC1 with id := "node-a-9", status := "completed" }

/-- The row produced by the failure-persist path on `queuedJobW` with
    pipeline error `"boom"` at `ts = "T"`, `now = 5`. -/
def failedRowW : Job :=
  { id := "node-a-w", status := "failed", stage := "failed",
    stage_detail := "job failed: boom", mode := "pipeline", settings := "",
    url := "", progress := 0, error := some "boom", result_json := none,
    events := ["T failed: job failed: boom"], created_at := 0, updated_at := 5 }

/-- A two-node cluster with only the local node healthy. -/
def clusterW : ClusterState :=
  { enabled := true, self_name := "node-a",
    nodes := [("node-a", "http://a"), ("node-b", "http://b")],
    node_status := [("node-a", true), ("node-b", false)],
    last_rr_index := 0 }

/-- A two-node cluster with both nodes healthy, seen from `node-a`. -/
def clusterW8 : ClusterState :=
  { enabled := true, self_name := "node-a",
    nodes := [("node-a", "http://a"), ("node-b", "http://b")],
    node_status := [("node-a", true), ("node-b", true)],
    last_rr_index := 0 }

/-- A supervisor that already spawned three children, one of which died. -/
def supervisorBusyW : SupervisorState :=
  { children := [true, false, true], isChildProcess := false,
    embedWorkers := true, workerCount := 3 }

/-! Helper lemmas about row updates and the event log. -/

/-- A row that `g` fixes survives a row-wise table rewrite. -/
theorem mem_map_self {l : List Job} {g : Job → Job} {a : Job}
    (ha : a ∈ l) (h : g a = a) : a ∈ l.map g :=
  List.mem_map.mpr ⟨a, ha, h⟩

/-- A keyed update leaves rows with a different id untouched. -/
theorem mem_updateRow_of_ne {t : Table} {j : Job} (hj : j ∈ t) {i : String}
    (hne : ¬ j.id = i) (f : Job → Job) : j ∈ updateRow t i f :=
  mem_map_self hj (by simp [hne])

/-- After a keyed update, every row carrying the key satisfies whatever the
    update establishes on any row carrying the key. -/
theorem updateRow_establish {t : Table} {i : String} {f : Job → Job}
    (P : Job → Prop) (hf : ∀ a, a.id = i → P (f a)) :
    ∀ j ∈ updateRow t i f, j.id = i → P j := by
  intro j hj hid
  rcases List.mem_map.mp hj with ⟨a, ha, rfl⟩
  by_cases h : a.id = i
  · simpa [h] using hf a h
  · simp [h] at hid ⊢

/-- A keyed update preserves a property of the rows carrying the key,
    provided `f` preserves it. -/
theorem updateRow_preserve {t : Table} {i : String} {f : Job → Job}
    (P : Job → Prop) (hf : ∀ a, P a → P (f a))
    (hprev : ∀ j ∈ t, j.id = i → P j) :
    ∀ j ∈ updateRow t i f, j.id = i → P j := by
  intro j hj hid
  rcases List.mem_map.mp hj with ⟨a, ha, rfl⟩
  by_cases h : a.id = i
  · simp only [h, if_pos] at hid ⊢
    exact hf a (hprev a ha h)
  · simp [h] at hid ⊢

/-- A keyed update keeps a row with the key present when `f` preserves
    ids. -/
theorem updateRow_exists {t : Table} {i : String} {f : Job → Job}
    (hid : ∀ a, (f a).id = a.id) (h : ∃ j ∈ t, j.id = i) :
    ∃ j ∈ updateRow t i f, j.id = i := by
  rcases h with ⟨j, hj, hji⟩
  by_cases hc : j.id = i
  · exact ⟨f j, List.mem_map.mpr ⟨j, hj, by simp [hc]⟩, by rw [hid]; exact hc⟩
  · exact absurd hji hc

/-- Unfolding of a fault-free `_append_job_event`. -/
theorem append_job_event_none (t : Table) (i m : String) (now : Nat) :
    append_job_event t i m now none
      = updateRow t i (fun j =>
          { j with events := boundEvents j.events m, updated_at := now }) := rfl

/-- A row whose id is outside the recovered-id list survives the
    per-id recovery-event loop untouched. -/
theorem mem_foldl_recovery {msg ts : String} {now : Nat} :
    ∀ (ids : List String) (t : Table) (j : Job), j ∈ t → ¬ ids.contains j.id →
      j ∈ ids.foldl (fun acc i => appendRecoveryEvent acc i msg ts now) t := by
  intro ids
  induction ids with
  | nil => intro t j hj _; simpa using hj
  | cons i rest ih =>
      intro t j hj hni
      simp only [List.contains_cons, Bool.or_eq_true, beq_iff_eq, not_or] at hni
      simp only [List.foldl_cons]
      exact ih _ j
        (mem_updateRow_of_ne hj (fun h => hni.1 (by simp [h])) _)
        (by simpa using hni.2)

/-- With a `Nodup` id column (the `id TEXT PRIMARY KEY` constraint), two
    rows of the table with the same id are the same row. -/
theorem row_eq_of_id_eq {t : Table} (h : (t.map Job.id).Nodup)
    {a b : Job} (ha : a ∈ t) (hb : b ∈ t) (hid : a.id = b.id) : a = b :=
  List.inj_on_of_nodup_map h ha hb hid

/-- A non-`processing` row's id is never among the startup sweep's
    selected candidates (given the primary-key constraint). -/
theorem not_mem_selectProcessingIds {t : Table} (h : (t.map Job.id).Nodup)
    {j : Job} (hj : j ∈ t) (hs : ¬ j.status = "processing") :
    ¬ (selectProcessingIds t).contains j.id := by
  intro hc
  rw [List.contains, List.elem_iff] at hc
  rcases List.mem_map.mp hc with ⟨b, hbmem, hbid⟩
  rcases List.mem_filter.mp hbmem with ⟨hbt, hbp⟩
  have hb : b.status = "processing" := by simpa using hbp
  have : b = j := row_eq_of_id_eq h hbt hj hbid
  exact hs (this ▸ hb)

/-- A non-`processing` row's id is never among the watchdog's selected
    stale candidates (given the primary-key constraint). -/
theorem not_mem_selectStaleIds {t : Table} {timeout now : Nat}
    (h : (t.map Job.id).Nodup) {j : Job} (hj : j ∈ t)
    (hs : ¬ j.status = "processing") :
    ¬ (selectStaleIds t timeout now).contains j.id := by
  intro hc
  rw [List.contains, List.elem_iff] at hc
  rcases List.mem_map.mp hc with ⟨b, hbmem, hbid⟩
  rcases List.mem_filter.mp hbmem with ⟨hbt, hbp⟩
  simp only [Bool.and_eq_true, beq_iff_eq, decide_eq_true_eq] at hbp
  have : b = j := row_eq_of_id_eq h hbt hj hbid
  exact hs (this ▸ hbp.1)

/-- Both parts of `_set_stage` keep ids, so a row carrying the key stays
    present. -/
theorem set_stage_exists {t : Table} {i : String} (stage detail : String)
    (status error : Option String) (ts : String) (now : Nat)
    (h : ∃ j ∈ t, j.id = i) :
    ∃ j ∈ set_stage t i stage detail status error ts now, j.id = i := by
  unfold set_stage
  rw [append_job_event_none]
  exact updateRow_exists (fun a => rfl)
    (updateRow_exists (fun a => rfl) h)

/-- The terminal persist keeps the persisted row present. -/
theorem persistOutcome_exists {t : Table} {i : String}
    (outcome : PipelineOutcome) (ts : String) (now : Nat)
    (h : ∃ j ∈ t, j.id = i) :
    ∃ j ∈ persistOutcome t i outcome ts now, j.id = i := by
  cases outcome with
  | failure msg => exact set_stage_exists _ _ _ _ _ _ h
  | success rj =>
      have heq : persistOutcome t i (PipelineOutcome.success rj) ts now
          = append_job_event
              (updateRow (set_stage t i "persist" "persisting result payload"
                none none ts now) i (completedFields rj now))
              i (ts ++ " completed: result persisted") now none := rfl
      rw [heq, append_job_event_none]
      exact updateRow_exists (fun a => rfl)
        (updateRow_exists (fun a => rfl) (set_stage_exists _ _ _ _ _ _ h))

/-- After the terminal persist, every row carrying the persisted id has a
    terminal status. -/
theorem persistOutcome_terminal {t : Table} {i : String}
    (outcome : PipelineOutcome) (ts : String) (now : Nat) :
    ∀ j ∈ persistOutcome t i outcome ts now, j.id = i →
      j.status = "completed" ∨ j.status = "failed" := by
  cases outcome with
  | failure msg =>
      unfold persistOutcome set_stage
      rw [append_job_event_none]
      exact updateRow_preserve _ (fun a ha => ha)
        (updateRow_establish _ (fun a _ => Or.inr (by simp [setStageFields])))
  | success rj =>
      have heq : persistOutcome t i (PipelineOutcome.success rj) ts now
          = append_job_event
              (updateRow (set_stage t i "persist" "persisting result payload"
                none none ts now) i (completedFields rj now))
              i (ts ++ " completed: result persisted") now none := rfl
      rw [heq, append_job_event_none]
      exact updateRow_preserve _ (fun a ha => ha)
        (updateRow_establish _ (fun a _ => Or.inl (by simp [completedFields])))

/-- A row with a different id is untouched by `_set_stage`. -/
theorem set_stage_mem_of_ne {t : Table} {j : Job} (hj : j ∈ t) {i : String}
    (hne : ¬ j.id = i) (stage detail : String) (status error : Option String)
    (ts : String) (now : Nat) :
    j ∈ set_stage t i stage detail status error ts now := by
  unfold set_stage
  rw [append_job_event_none]
  exact mem_updateRow_of_ne (mem_updateRow_of_ne hj hne _) hne _

/-- A row with a different id is untouched by the terminal persist. -/
theorem persistOutcome_mem_of_ne {t : Table} {j : Job} (hj : j ∈ t)
    {i : String} (hne : ¬ j.id = i) (outcome : PipelineOutcome)
    (ts : String) (now : Nat) :
    j ∈ persistOutcome t i outcome ts now := by
  cases outcome with
  | failure msg => exact set_stage_mem_of_ne hj hne _ _ _ _ _ _
  | success rj =>
      have heq : persistOutcome t i (PipelineOutcome.success rj) ts now
          = append_job_event
              (updateRow (set_stage t i "persist" "persisting result payload"
                none none ts now) i (completedFields rj now))
              i (ts ++ " completed: result persisted") now none := rfl
      rw [heq, append_job_event_none]
      exact mem_updateRow_of_ne
        (mem_updateRow_of_ne (set_stage_mem_of_ne hj hne _ _ _ _ _ _) hne _) hne _

/-- A non-`processing` row survives a full startup sweep untouched (given
    the primary-key constraint). -/
theorem startup_mem_of_not_processing {t : Table}
    (hnodup : (t.map Job.id).Nodup) {j : Job} (hj : j ∈ t)
    (hs : ¬ j.status = "processing") (ts : String) (now : Nat) :
    j ∈ (recover_stale_jobs_on_startup ts now t).snd := by
  have hnc : ¬ (selectProcessingIds t).contains j.id :=
    not_mem_selectProcessingIds hnodup hj hs
  unfold recover_stale_jobs_on_startup
  by_cases hemp : (selectProcessingIds t).isEmpty
  · simp [hemp, hj]
  · have hnm : j.id ∉ selectProcessingIds t := fun hm =>
      hnc (by rw [List.contains, List.elem_iff]; exact hm)
    simp only [hemp, Bool.false_eq_true, if_false]
    exact mem_foldl_recovery _ _ _
      (mem_map_self hj (by simp [startupResetRow, hnm])) hnc

/-- Every id in the watchdog's recovered-rows re-select was among the
    originally selected candidate ids. -/
theorem recovered_ids_subset {t1 : Table} {ids : List String} {x : String}
    (hx : ((t1.filter fun j => ids.contains j.id && j.status == "queued" &&
        j.stage_detail == "recovered by watchdog (stale timeout)").map
          Job.id).contains x) :
    ids.contains x := by
  rw [List.contains, List.elem_iff] at hx
  rcases List.mem_map.mp hx with ⟨b, hbmem, hbid⟩
  rcases List.mem_filter.mp hbmem with ⟨_, hbp⟩
  simp only [Bool.and_eq_true] at hbp
  rw [← hbid]
  exact hbp.1.1

/-- A non-`processing` row survives a full watchdog pass untouched (given
    the primary-key constraint). -/
theorem watchdog_mem_of_not_processing {t : Table}
    (hnodup : (t.map Job.id).Nodup) {j : Job} (hj : j ∈ t)
    (hs : ¬ j.status = "processing") (timeoutSeconds : Int) (ts : String)
    (now : Nat) :
    j ∈ (recover_stale_jobs timeoutSeconds ts now t).snd := by
  unfold recover_stale_jobs
  by_cases hneg : timeoutSeconds ≤ 0
  · simp [hneg, hj]
  · simp only [hneg, if_false]
    have hnc : ¬ (selectStaleIds t timeoutSeconds.toNat now).contains j.id :=
      not_mem_selectStaleIds hnodup hj hs
    by_cases hemp : (selectStaleIds t timeoutSeconds.toNat now).isEmpty
    · simp [hemp, hj]
    · simp only [hemp, Bool.false_eq_true, if_false]
      have hfix : watchdogResetRow (selectStaleIds t timeoutSeconds.toNat now)
          timeoutSeconds.toNat now j = j := by
        unfold watchdogResetRow
        rw [if_neg]
        intro hcond
        exact hs hcond.2.1
      refine mem_foldl_recovery _ _ _
        (mem_map_self hj hfix) ?_
      intro hc
      exact hnc (recovered_ids_subset hc)

/-- With duplicate-free keys, the first pair found by key lookup is the
    member pair itself. -/
theorem find_pair_of_nodup_keys :
    ∀ {l : List (String × String)}, (l.map Prod.fst).Nodup →
      ∀ {t url : String}, (t, url) ∈ l →
        l.find? (fun p => p.1 == t) = some (t, url) := by
  intro l
  induction l with
  | nil => intro _ t url hmem; cases hmem
  | cons hd tl ih =>
      intro hnodup t url hmem
      rcases List.mem_cons.mp hmem with heq | hmem2
      · rw [← heq]
        exact List.find?_cons_of_pos _ (by simp)
      · have hne : ¬ hd.1 = t := by
          intro h
          have : t ∈ tl.map Prod.fst := List.mem_map.mpr ⟨(t, url), hmem2, rfl⟩
          rw [← h] at this
          exact (List.nodup_cons.mp (by simpa using hnodup)).1 this
        rw [List.find?_cons_of_neg _ (by simpa using hne)]
        exact ih (List.nodup_cons.mp (by simpa using hnodup)).2 hmem2

/-- Liveness count of a batch of freshly spawned children. -/
theorem filter_replicate_true_length :
    ∀ n : Nat, ((List.replicate n true).filter id).length = n := by
  intro n
  induction n with
  | zero => rfl
  | succ k ih => simp [List.replicate_succ, List.filter_cons, ih]

/-! Claim theorems. -/

/-- C6: `_append_job_event` reads the row's event list, appends the new
    entry at the end and truncates to the most recent 400 entries, so the
    stored list equals the previous list with the entry appended restricted
    to its last 400 elements (exactly the appended list while under the
    cap), the relative order of retained entries is preserved (the stored
    list is a suffix of the appended list), and its length never
    exceeds 400. -/
theorem append_event_bounded_spec (table : Table) (jobId msg : String)
    (now : Nat) (events : List String) :
    (append_job_event table jobId msg now none).map Job.events
      = table.map (fun j =>
          if j.id = jobId then boundEvents j.events msg else j.events)
    ∧ (events.length < 400 → boundEvents events msg = events ++ [msg])
    ∧ (boundEvents events msg).length = min (events.length + 1) 400
    ∧ boundEvents events msg <:+ events ++ [msg]
    ∧ (boundEvents events msg).length ≤ 400 := by
  refine ⟨?_, ?_, ?_, ?_, ?_⟩
  · rw [append_job_event_none]
    unfold updateRow
    rw [List.map_map]
    apply List.map_congr_left
    intro j _
    by_cases h : j.id = jobId <;> simp [h]
  · intro h
    show List.drop ((events ++ [msg]).length - 400) (events ++ [msg])
        = events ++ [msg]
    have h0 : (events ++ [msg]).length - 400 = 0 := by
      simp only [List.length_append, List.length_cons, List.length_nil]
      omega
    rw [h0, List.drop_zero]
  · show (List.drop ((events ++ [msg]).length - 400) (events ++ [msg])).length
        = min (events.length + 1) 400
    simp only [List.length_drop, List.length_append, List.length_cons,
      List.length_nil]
    omega
  · exact List.drop_suffix _ _
  · show (List.drop ((events ++ [msg]).length - 400) (events ++ [msg])).length
        ≤ 400
    simp only [List.length_drop]
    omega

/-- C6 witness: appending to a one-entry list while under the cap yields
    the plainly appended list. -/
theorem append_event_bounded_spec_witness :
    boundEvents ["a"] "b" = ["a"] ++ ["b"] :=
  (append_event_bounded_spec [] "j" "b" 0 ["a"]).2.1 (by decide)

/-- C10: an event-append failure never aborts job processing — whatever
    fault the read-modify-write raises, `_append_job_event` returns
    normally with the table unchanged (the event is silently dropped), and
    for any fault at all it never touches a row's status or stage. -/
theorem append_event_error_swallowed_spec (table : Table)
    (jobId msg : String) (now : Nat) (e : String) :
    append_job_event table jobId msg now (some e) = table
    ∧ ∀ fault : Option String,
        (append_job_event table jobId msg now fault).map
            (fun j => (j.id, j.status, j.stage))
          = table.map (fun j => (j.id, j.status, j.stage)) := by
  refine ⟨rfl, ?_⟩
  intro fault
  cases fault with
  | some e2 => rfl
  | none =>
      rw [append_job_event_none]
      unfold updateRow
      rw [List.map_map]
      apply List.map_congr_left
      intro j _
      by_cases h : j.id = jobId <;> simp [h]

/-- C3 (failing input): one watchdog pass at `now = 1000` with the default
    600 s timeout over one stale and one fresh `processing` job.  The stale
    job is reset with exactly one recovery event appended, and the fresh
    job is untouched — but the status and stage written are `"queued"`,
    while the spec and the repository's own test
    (`tests/test_stale_recovery.py`) demand `"re-queued"`. -/
theorem watchdog_pass_resets_to_queued_failing_input :
    (recover_stale_jobs 600 "T" 1000 [staleJobC3, freshJobC3]).fst = 1
    ∧ (recover_stale_jobs 600 "T" 1000 [staleJobC3, freshJobC3]).snd.map
        (fun j => (j.id, j.status, j.stage, j.stage_detail, j.events))
      = [("stale-job", "queued", "queued",
          "recovered by watchdog (stale timeout)",
          ["T recovery: recovered by watchdog (stale timeout)"]),
         ("fresh-job", "processing", "llm", "running", [])]
    ∧ ¬ (recover_stale_jobs 600 "T" 1000 [staleJobC3, freshJobC3]).snd.map
          Job.status
        = ["re-queued", "processing"] := by
  refine ⟨rfl, rfl, by decide⟩

/-- C4 (failing input): a job-row mutation hitting sustained `database is
    locked` contention.  The single attempt `_append_job_event` makes
    raises; the surrounding handler swallows the error and drops the event.
    There is no second attempt, no sleep and no re-raise — the retry
    wrapper (`_execute_job_update_with_retry`) exercised by
    `tests/test_worker_db_locking.py` does not exist in `worker.py`. -/
theorem append_event_contention_single_attempt :
    appendJobEventAttempt [lockedJobC4] "job-1" "evt" 5
        (some "database is locked")
      = .error "database is locked"
    ∧ append_job_event [lockedJobC4] "job-1" "evt" 5
        (some "database is locked")
      = [lockedJobC4]
    ∧ ¬ (append_job_event [lockedJobC4] "job-1" "evt" 5
          (some "database is locked")).map Job.events
        = [["evt"]] := by
  refine ⟨rfl, rfl, by decide⟩

/-- C7: round-robin placement.  With the cluster disabled, `select_rr_node`
    always returns the local node; with the cluster enabled and at least
    one healthy node, it returns a member of the currently-healthy set;
    with no healthy node it returns none and `_rr_or_raise` — the guard of
    every job-submission endpoint — raises 503 `No healthy nodes
    available`. -/
theorem select_rr_node_spec (c : ClusterState) :
    (c.enabled = false → (select_rr_node c).fst = some c.self_name)
    ∧ (c.enabled = true → ¬ get_healthy_nodes c = [] →
        ∃ n, (select_rr_node c).fst = some n ∧ n ∈ get_healthy_nodes c)
    ∧ (c.enabled = true → get_healthy_nodes c = [] →
        (select_rr_node c).fst = none
        ∧ (rr_or_raise c).fst
          = .error (503, "No healthy nodes available")) := by
  refine ⟨?_, ?_, ?_⟩
  · intro h
    simp [select_rr_node, h]
  · intro he hne
    have hp : 0 < (get_healthy_nodes c).length := List.length_pos.mpr hne
    refine ⟨(get_healthy_nodes c).get
      ⟨(c.last_rr_index + 1) % (get_healthy_nodes c).length, Nat.mod_lt _ hp⟩,
      ?_, List.get_mem _ _ _⟩
    simp [select_rr_node, he, hp]
  · intro he h0
    have h1 : select_rr_node c = (none, c) := by
      simp [select_rr_node, he, h0]
    exact ⟨by rw [h1], by unfold rr_or_raise; rw [h1]⟩

/-- C7 witness: on a two-node cluster where only `node-a` is healthy, the
    round-robin pick lands in the healthy set. -/
theorem select_rr_node_spec_witness :
    (select_rr_node clusterW).fst = some "node-a"
    ∧ "node-a" ∈ get_healthy_nodes clusterW := by
  obtain ⟨n, hn, hm⟩ := (select_rr_node_spec clusterW).2.1 rfl (by decide)
  have h2 : (select_rr_node clusterW).fst = some "node-a" := by decide
  have h3 : n = "node-a" := by
    rw [h2] at hn
    exact (Option.some.inj hn).symm
  rw [h3] at hm
  exact ⟨h2, hm⟩

/-- C8: a request already carrying the `internal=1` marker is never
    forwarded again, whatever the cluster state; a request without the
    marker whose job id is owned (by name-dash prefix) by another
    configured node is forwarded to that node's configured address with the
    internal marker appended — so a forwarded copy can never be
    re-forwarded. -/
theorem routing_internal_marker_spec (c : ClusterState) (jobId t url : String)
    (hnodup : (c.nodes.map Prod.fst).Nodup)
    (hfind : c.nodes.find? (fun p => strStarts (p.1 ++ "-") jobId)
      = some (t, url))
    (hne : ¬ t = "") (hns : ¬ t = c.self_name) :
    maybe_proxy c false jobId = some (url, true)
    ∧ ∀ (c2 : ClusterState) (jobId2 : String),
        maybe_proxy c2 true jobId2 = none := by
  constructor
  · have hmem : (t, url) ∈ c.nodes := List.mem_of_find?_eq_some hfind
    have hurl : get_node_url c t = some url := by
      unfold get_node_url
      rw [find_pair_of_nodup_keys hnodup hmem]
      rfl
    unfold maybe_proxy
    rw [if_neg (by simp), hfind]
    simp only [if_pos (And.intro hne hns)]
    rw [hurl]
  · intro c2 jobId2
    simp [maybe_proxy]

/-- C8 witness: from `node-a`, a job id owned by `node-b` is forwarded to
    `node-b`'s address with the marker set, and the marked copy is handled
    locally. -/
theorem routing_internal_marker_spec_witness :
    maybe_proxy clusterW8 false "node-b-123" = some ("http://b", true)
    ∧ maybe_proxy clusterW8 true "node-b-123" = none := by
  have h := routing_internal_marker_spec clusterW8 "node-b-123" "node-b"
    "http://b" (by decide) (by decide) (by decide) (by decide)
  exact ⟨h.1, h.2 clusterW8 "node-b-123"⟩

/-- C9: the supervisor's `start()` is idempotent — called while previously
    spawned children are alive it spawns nothing and returns the count of
    currently alive children; a first successful call (parent process,
    embedding enabled, nothing spawned yet) spawns the configured number of
    worker processes, all alive, and returns that count. -/
theorem embedded_start_idempotent_spec (s : SupervisorState)
    (hchild : s.isChildProcess = false) (hembed : s.embedWorkers = true) :
    (true ∈ s.children →
        embeddedStart s = ((s.children.filter id).length, s))
    ∧ (s.children = [] →
        embeddedStart s
          = (s.workerCount,
             { s with children := List.replicate s.workerCount true })
        ∧ ((List.replicate s.workerCount true).filter id).length
          = s.workerCount) := by
  constructor
  · intro halive
    have hne : ¬ s.children = [] := by
      intro h0
      rw [h0] at halive
      cases halive
    simp [embeddedStart, hchild, hembed, hne]
  · intro h0
    exact ⟨by simp [embeddedStart, hchild, hembed, h0],
      filter_replicate_true_length s.workerCount⟩

/-- C9 witness: with three spawned children of which one died, `start()`
    reports the two alive children and changes nothing. -/
theorem embedded_start_idempotent_spec_witness :
    embeddedStart supervisorBusyW = (2, supervisorBusyW) := by
  have h := (embedded_start_idempotent_spec supervisorBusyW rfl rfl).1
    (by decide)
  have h2 : ((supervisorBusyW.children.filter id).length, supervisorBusyW)
      = (2, supervisorBusyW) := by decide
  exact h.trans h2

/-- C2: `claim_and_process_job` returns false and leaves every job row
    unchanged when no row has status `queued`; when a queued row exists it
    selects exactly one such row, transitions it to `processing` — after
    which that row is no longer selectable by any other claim — runs the
    stage pipeline, persists a terminal outcome for that row, and returns
    true. -/
theorem claim_and_process_spec (runStage : Job → PipelineOutcome)
    (ts : String) (now : Nat) (table : Table) :
    ((∀ j ∈ table, ¬ j.status = "queued") →
        claim_and_process_job runStage ts now table = (false, table))
    ∧ ∀ row, findQueued table = some row →
        row ∈ table ∧ row.status = "queued"
        ∧ (∀ j ∈ updateRow table row.id (claimFields now), j.id = row.id →
              j.status = "processing" ∧ ¬ j.status = "queued")
        ∧ (claim_and_process_job runStage ts now table).fst = true
        ∧ (∃ j ∈ (claim_and_process_job runStage ts now table).snd,
              j.id = row.id)
        ∧ (∀ j ∈ (claim_and_process_job runStage ts now table).snd,
              j.id = row.id →
                j.status = "completed" ∨ j.status = "failed") := by
  constructor
  · intro h
    have hn : findQueued table = none := by
      unfold findQueued
      rw [List.find?_eq_none]
      intro x hx
      simpa using h x hx
    simp [claim_and_process_job, hn]
  · intro row hrow
    have hmem : row ∈ table := List.mem_of_find?_eq_some hrow
    have hq : row.status = "queued" := by simpa using List.find?_some hrow
    have hsnd : (claim_and_process_job runStage ts now table).snd
        = persistOutcome
            (append_job_event (updateRow table row.id (claimFields now))
              row.id (ts ++ " claim: worker claimed job") now none)
            row.id (dispatchJob runStage row) ts now := by
      simp [claim_and_process_job, hrow]
    refine ⟨hmem, hq, ?_, ?_, ?_, ?_⟩
    · refine updateRow_establish _ (fun a _ => ⟨rfl, ?_⟩)
      intro hcontra
      simp [claimFields] at hcontra
    · simp [claim_and_process_job, hrow]
    · rw [hsnd]
      refine persistOutcome_exists _ _ _ ?_
      rw [append_job_event_none]
      exact updateRow_exists (fun a => rfl)
        (updateRow_exists (fun a => rfl) ⟨row, hmem, rfl⟩)
    · rw [hsnd]
      exact persistOutcome_terminal _ _ _

/-- C2 witness: a one-row queue is claimed and run to a terminal state. -/
theorem claim_and_process_spec_witness :
    (claim_and_process_job (fun _ => PipelineOutcome.success none) "T" 5
      [queuedJobW]).fst = true := by
  have h := (claim_and_process_spec (fun _ => PipelineOutcome.success none)
    "T" 5 [queuedJobW]).2 queuedJobW (by decide)
  exact h.2.2.2.1

/-- C5: if the stage pipeline raises, the job row is written with
    `status = failed`, `stage = failed`, and the error message truncated to
    4096 characters; the state is terminal — the watchdog's reset re-check
    skips failed rows, the claimer never selects them, and a full startup
    sweep leaves them untouched, so the core never automatically re-queues
    or retries a failed job. -/
theorem pipeline_failure_terminal_spec (table : Table) (jobId msg ts : String)
    (now : Nat) :
    (∀ j ∈ persistOutcome table jobId (PipelineOutcome.failure msg) ts now,
        j.id = jobId →
          j.status = "failed" ∧ j.stage = "failed"
          ∧ j.error = some (strTake msg 4096))
    ∧ (strTake msg 4096).length ≤ 4096
    ∧ (∀ j : Job, j.status = "failed" →
        ∀ (ids : List String) (timeout now2 : Nat),
          watchdogResetRow ids timeout now2 j = j)
    ∧ (∀ (t : Table) (row : Job), findQueued t = some row →
        ¬ row.status = "failed")
    ∧ (∀ (t : Table) (ts2 : String) (now2 : Nat), (t.map Job.id).Nodup →
        ∀ j ∈ t, j.status = "failed" →
          j ∈ (recover_stale_jobs_on_startup ts2 now2 t).snd) := by
  refine ⟨?_, ?_, ?_, ?_, ?_⟩
  · unfold persistOutcome set_stage
    rw [append_job_event_none]
    exact updateRow_preserve _ (fun a ha => ha)
      (updateRow_establish _ (fun a _ => by simp [setStageFields]))
  · show (msg.data.take 4096).length ≤ 4096
    rw [List.length_take]
    omega
  · intro j hj ids timeout now2
    unfold watchdogResetRow
    rw [if_neg]
    intro hcond
    rw [hj] at hcond
    exact absurd hcond.2.1 (by decide)
  · intro t row h
    have hq : row.status = "queued" := by simpa using List.find?_some h
    intro hcontra
    rw [hcontra] at hq
    exact absurd hq (by decide)
  · intro t ts2 now2 hnodup j hj hfail
    exact startup_mem_of_not_processing hnodup hj
      (by rw [hfail]; decide) ts2 now2

/-- C5 witness: persisting the failure `"boom"` for the claimed one-row
    table produces exactly the failed terminal row. -/
theorem pipeline_failure_terminal_spec_witness :
    failedRowW ∈ persistOutcome [queuedJobW] "node-a-w"
        (PipelineOutcome.failure "boom") "T" 5
    ∧ failedRowW.status = "failed" ∧ failedRowW.stage = "failed"
    ∧ failedRowW.error = some (strTake "boom" 4096) := by
  refine ⟨by decide, ?_⟩
  exact (pipeline_failure_terminal_spec [queuedJobW] "node-a-w" "boom" "T"
    5).1 failedRowW (by decide) (by decide)

/-- C1 counterexample: the startup sweep captures the id of a `processing`
    job; a worker then persists that job as `completed`; the sweep's reset
    `UPDATE ... WHERE id IN (...)` — whose `WHERE` clause does not re-check
    `status = 'processing'` at the moment it executes — drags the completed
    job back to `queued`. -/
theorem startup_sweep_where_not_rechecked_cex :
    sweepIdsC1 = ["node-a-7"]
    ∧ completedTableC1.map Job.status = ["completed"]
    ∧ (startupUpdate completedTableC1 sweepIdsC1 6).map Job.status
      = ["queued"] := ⟨rfl, rfl, rfl⟩

/-- C1 (amended): a job whose status is `completed` or `failed` keeps that
    status across every core operation run atomically — the periodic
    watchdog's reset re-checks `status = 'processing'` in its own `WHERE`
    clause for any captured id list, stage transitions never write
    `status`, job creation, a full claim-and-process cycle, a full startup
    sweep and a full watchdog pass leave terminal rows untouched.  Unlike
    the watchdog's update, the startup sweep's reset update re-checks only
    the captured ids, not the status, so its guarantee needs the sweep to
    run without an interleaved write between its select and its update
    (see the counterexample). -/
theorem terminal_status_preserved_amended (j : Job)
    (hterm : j.status = "completed" ∨ j.status = "failed") :
    (∀ (ids : List String) (timeout now : Nat),
        watchdogResetRow ids timeout now j = j)
    ∧ (∀ (stage detail : String) (err : Option String) (now : Nat),
        (setStageFields stage detail none err now j).status = j.status)
    ∧ (∀ (table : Table) (n u m sj url : String) (now : Nat),
        j ∈ table → j ∈ create_job table n u m sj url now)
    ∧ (∀ (table : Table) (runStage : Job → PipelineOutcome) (ts : String)
          (now : Nat),
        (table.map Job.id).Nodup → j ∈ table →
          j ∈ (claim_and_process_job runStage ts now table).snd)
    ∧ (∀ (table : Table) (ts : String) (now : Nat),
        (table.map Job.id).Nodup → j ∈ table →
          j ∈ (recover_stale_jobs_on_startup ts now table).snd)
    ∧ (∀ (table : Table) (timeoutSeconds : Int) (ts : String) (now : Nat),
        (table.map Job.id).Nodup → j ∈ table →
          j ∈ (recover_stale_jobs timeoutSeconds ts now table).snd) := by
  have hnp : ¬ j.status = "processing" := by
    rcases hterm with h | h <;> rw [h] <;> decide
  have hnq : ¬ j.status = "queued" := by
    rcases hterm with h | h <;> rw [h] <;> decide
  refine ⟨?_, ?_, ?_, ?_, ?_, ?_⟩
  · intro ids timeout now
    unfold watchdogResetRow
    rw [if_neg]
    intro hcond
    exact hnp hcond.2.1
  · intro stage detail err now
    rfl
  · intro table n u m sj url now hj
    exact List.mem_append_left _ hj
  · intro table runStage ts now hnodup hj
    cases hfq : findQueued table with
    | none =>
        simp only [claim_and_process_job, hfq]
        exact hj
    | some row =>
        have hrmem : row ∈ table := List.mem_of_find?_eq_some hfq
        have hrq : row.status = "queued" := by
          simpa using List.find?_some hfq
        have hne : ¬ j.id = row.id := by
          intro h
          have hjr : j = row := row_eq_of_id_eq hnodup hj hrmem h
          rw [hjr] at hnq
          exact hnq hrq
        have hsnd : (claim_and_process_job runStage ts now table).snd
            = persistOutcome
                (append_job_event (updateRow table row.id (claimFields now))
                  row.id (ts ++ " claim: worker claimed job") now none)
                row.id (dispatchJob runStage row) ts now := by
          simp [claim_and_process_job, hfq]
        rw [hsnd]
        refine persistOutcome_mem_of_ne ?_ hne _ _ _
        rw [append_job_event_none]
        exact mem_updateRow_of_ne (mem_updateRow_of_ne hj hne _) hne _
  · intro table ts now hnodup hj
    exact startup_mem_of_not_processing hnodup hj hnp ts now
  · intro table timeoutSeconds ts now hnodup hj
    exact watchdog_mem_of_not_processing hnodup hj hnp timeoutSeconds ts now

/-- C1 witness: a completed job survives a startup sweep over a singleton
    table and is a fixed point of the watchdog reset for any id list. -/
theorem terminal_status_preserved_amended_witness :
    doneJobW ∈ (recover_stale_jobs_on_startup "T" 7 [doneJobW]).snd
    ∧ watchdogResetRow ["node-a-9"] 600 5000 doneJobW = doneJobW := by
  have h := terminal_status_preserved_amended doneJobW (Or.inl rfl)
  exact ⟨h.2.2.2.2.1 [doneJobW] "T" 7 (by decide) (by decide),
    h.1 ["node-a-9"] 600 5000⟩

end AdClassifier
